import Mathlib

/-!
Shallow embedding of the warehouse stock-ledger core of the PP10
repository (FastAPI + SQLAlchemy source: `main.py`, `schemas.py`,
`models.py`, `database.py`).

Modelling conventions:
* SQL `Float` quantities become exact rationals `ℚ`; primary keys become `ℕ`.
* Reference tables (components, locations, suppliers) are kept as lists of
  existing ids, since the core only performs existence checks on them.
* The stocks table is a map `(component_id, location_id) → Option Stock`
  (the engine's create-if-absent / update-in-place discipline keeps at most
  one row per pair); the audit log is an append-only list.
* Each HTTP handler becomes a function `DB → ... → Except ApiError DB`.
  `get_db` in `database.py` never commits, so a handler that raises loses
  all uncommitted session work: `committed` maps an error back to the
  pre-call state (rollback), and `_stock_upsert`'s error also carries the
  session state at the raise so that session-level effects can be stated.
* Wall-clock timestamps (`created_at`, `received_at`, ...) are outside the
  embedding.
-/

namespace Warehouse

/-- models.py `AuditActionType`. -/
inductive AuditActionType where
  | create
  | update
  | delete
  | receipt
  | issue
  | adjust
  | inventory
deriving DecidableEq, Repr

/-- models.py `ReceiptStatus`. -/
inductive ReceiptStatus where
  | draft
  | confirmed
  | cancelled
deriving DecidableEq, Repr

/-- models.py `IssueStatus`. -/
inductive IssueStatus where
  | draft
  | confirmed
  | cancelled
deriving DecidableEq, Repr

/-- models.py `InventoryStatus`: note there is no draft constructor. -/
inductive InventoryStatus where
  | in_progress
  | completed
  | cancelled
deriving DecidableEq, Repr

/-- models.py `AuditLog` row (`created_at` omitted: time is not modelled). -/
structure AuditLog where
  action_type : AuditActionType
  entity_type : String
  entity_id : Option ℕ
  component_id : Option ℕ
  location_id : Option ℕ
  quantity_before : Option ℚ
  quantity_after : Option ℚ
  description : Option String
  payload : Option String
  performed_by : Option String
deriving DecidableEq, Repr

/-- models.py `Stock` row; `(component_id, location_id)` is the key of the
stocks map in `DB`, so only the remaining columns live here. -/
structure Stock where
  id : ℕ
  quantity : ℚ
  reserved : ℚ
deriving DecidableEq, Repr

/-- models.py `ReceiptItem`. -/
structure ReceiptItem where
  component_id : ℕ
  location_id : Option ℕ
  quantity : ℚ
  price_rub : Option ℚ
deriving DecidableEq, Repr

/-- models.py `Receipt`. -/
structure Receipt where
  number : String
  supplier_id : ℕ
  status : ReceiptStatus
  invoice_number : Option String
  notes : Option String
  created_by : Option String
  items : List ReceiptItem
deriving DecidableEq, Repr

/-- models.py `IssueItem`. -/
structure IssueItem where
  component_id : ℕ
  location_id : Option ℕ
  quantity : ℚ
deriving DecidableEq, Repr

/-- models.py `Issue`. -/
structure Issue where
  number : String
  department : Option String
  requester : Option String
  purpose : Option String
  notes : Option String
  created_by : Option String
  status : IssueStatus
  items : List IssueItem
deriving DecidableEq, Repr

/-- models.py `InventoryItem` (the stored line: `location_id` is stored
already resolved by the handler, hence `ℕ`). -/
structure InventoryItem where
  component_id : ℕ
  location_id : ℕ
  expected_quantity : ℚ
  actual_quantity : ℚ
  discrepancy : ℚ
deriving DecidableEq, Repr

/-- models.py `Inventory`. -/
structure Inventory where
  number : String
  status : InventoryStatus
  notes : Option String
  created_by : Option String
  items : List InventoryItem
deriving DecidableEq, Repr

/-- The relational store. Reference tables are id lists (only existence
checks matter to the core); documents and stocks are id-keyed maps; the
audit log is an append-only list; `next*Id` model autoincrement keys. -/
@[ext]
structure DB where
  components : List ℕ
  locations : List ℕ
  suppliers : List ℕ
  stocks : ℕ × ℕ → Option Stock
  nextStockId : ℕ
  receipts : ℕ → Option Receipt
  nextReceiptId : ℕ
  issues : ℕ → Option Issue
  nextIssueId : ℕ
  inventories : ℕ → Option Inventory
  nextInventoryId : ℕ
  ledger : List AuditLog

/-- The `HTTPException` payloads the handlers raise, made structural:
404 lookups, the insufficient-stock 400 (whose detail string carries
`before` and `abs(delta)`), and the already-processed 400s. -/
inductive ApiError where
  | notFound (table : String) (objId : ℕ)
  | insufficientStock (available requested : ℚ)
  | alreadyProcessed (message : String)
deriving DecidableEq, Repr

def DB.setStock (db : DB) (key : ℕ × ℕ) (s : Stock) : DB :=
  { db with stocks := fun p => if p = key then some s else db.stocks p }

def DB.setReceipt (db : DB) (rec_id : ℕ) (r : Receipt) : DB :=
  { db with receipts := fun i => if i = rec_id then some r else db.receipts i }

def DB.setIssue (db : DB) (iss_id : ℕ) (x : Issue) : DB :=
  { db with issues := fun i => if i = iss_id then some x else db.issues i }

def DB.setInventory (db : DB) (inv_id : ℕ) (inv : Inventory) : DB :=
  { db with inventories := fun i => if i = inv_id then some inv else db.inventories i }

/-- Quantity on hand at a pair, an absent row reading as 0. -/
def qtyOf (db : DB) (p : ℕ × ℕ) : ℚ :=
  match db.stocks p with
  | some s => s.quantity
  | none => 0

/-- Reserved quantity at a pair, an absent row reading as 0 (the column
default in models.py). -/
def reservedOf (db : DB) (p : ℕ × ℕ) : ℚ :=
  match db.stocks p with
  | some s => s.reserved
  | none => 0

/-- Python `item.location_id or 1`: both `None` and `0` are falsy. -/
def locOr1 : Option ℕ → ℕ
  | none => 1
  | some l => if l = 0 then 1 else l

/-- main.py `_write_audit`: appends one row to the audit log. -/
def writeAudit (db : DB) (log : AuditLog) : DB :=
  { db with ledger := db.ledger ++ [log] }

/-- Request boundary: `get_db` never commits, so a handler that raises has
its whole uncommitted session rolled back when the session closes. -/
def committed (db : DB) : Except ApiError DB → DB
  | .ok db' => db'
  | .error _ => db

/-- Request boundary for `_stock_upsert` when it is invoked as the whole
mutating work of a request: an error discards the session state. -/
def commitUpsert (db : DB) : Except (ApiError × DB) DB → DB
  | .ok db' => db'
  | .error _ => db

/-- main.py `_stock_upsert`, after the lookup / create-if-absent step:
compute `after = before + delta`, raise the insufficient-stock 400 if it
is negative (the error carries the session state at the raise), otherwise
write the quantity and append the audit row. -/
def stockUpsertGo (db : DB) (component_id location_id : ℕ) (s : Stock) (delta : ℚ)
    (performed_by : Option String) (action_type : AuditActionType)
    (description : Option String) : Except (ApiError × DB) DB :=
  let before := s.quantity
  let after := before + delta
  if after < 0 then
    .error (.insufficientStock before |delta|, db)
  else
    .ok (writeAudit (db.setStock (component_id, location_id) { s with quantity := after })
      { action_type := action_type, entity_type := "stock", entity_id := some s.id,
        component_id := some component_id, location_id := some location_id,
        quantity_before := some before, quantity_after := some after,
        description := description, payload := none, performed_by := performed_by })

/-- main.py `_stock_upsert`: locate the row for the pair, materialise a
zero-quantity row if absent (`db.add` + `db.flush`), then apply the delta. -/
def stockUpsert (db : DB) (component_id location_id : ℕ) (delta : ℚ)
    (performed_by : Option String) (action_type : AuditActionType)
    (description : Option String) : Except (ApiError × DB) DB :=
  match db.stocks (component_id, location_id) with
  | some s =>
      stockUpsertGo db component_id location_id s delta performed_by action_type description
  | none =>
      let s : Stock := { id := db.nextStockId, quantity := 0, reserved := 0 }
      let db1 := { db.setStock (component_id, location_id) s with
                   nextStockId := db.nextStockId + 1 }
      stockUpsertGo db1 component_id location_id s delta performed_by action_type description

/-- schemas.py `StockAdjust`: note that `quantity` carries no `ge=0`
constraint, unlike e.g. `InventoryItemCreate.actual_quantity`. -/
structure StockAdjust where
  component_id : ℕ
  location_id : ℕ
  quantity : ℚ
  reason : Option String
  performed_by : Option String
deriving DecidableEq, Repr

/-- main.py `adjust_stock` (POST /stocks/adjust): 404-checks the component
and the location, then writes the absolute target quantity directly to the
row (creating it if absent) and appends an adjust audit row itself. -/
def adjust_stock (db : DB) (data : StockAdjust) : Except ApiError DB :=
  if data.component_id ∉ db.components then
    .error (.notFound "components" data.component_id)
  else if data.location_id ∉ db.locations then
    .error (.notFound "storage_locations" data.location_id)
  else
    let stockOpt := db.stocks (data.component_id, data.location_id)
    let before : ℚ := match stockOpt with
      | some s => s.quantity
      | none => 0
    let next : DB × ℕ := match stockOpt with
      | none =>
          let s : Stock := { id := db.nextStockId, quantity := data.quantity, reserved := 0 }
          ({ db.setStock (data.component_id, data.location_id) s with
             nextStockId := db.nextStockId + 1 }, s.id)
      | some s =>
          (db.setStock (data.component_id, data.location_id) { s with quantity := data.quantity },
           s.id)
    .ok (writeAudit next.1
      { action_type := .adjust, entity_type := "stock", entity_id := some next.2,
        component_id := some data.component_id, location_id := some data.location_id,
        quantity_before := some before, quantity_after := some data.quantity,
        description := data.reason, payload := none, performed_by := data.performed_by })

/-- schemas.py `ReceiptItemCreate` (pydantic constrains `quantity` with
`gt=0` at the HTTP boundary). -/
structure ReceiptItemCreate where
  component_id : ℕ
  location_id : Option ℕ
  quantity : ℚ
  price_rub : Option ℚ
deriving DecidableEq, Repr

/-- schemas.py `ReceiptCreate`. -/
structure ReceiptCreate where
  number : String
  supplier_id : ℕ
  invoice_number : Option String
  notes : Option String
  created_by : Option String
  items : List ReceiptItemCreate
deriving DecidableEq, Repr

/-- The item loop of main.py `create_receipt`: each line's component is
404-checked; the first failure aborts the request. -/
def buildReceiptItems (db : DB) : List ReceiptItemCreate → Except ApiError (List ReceiptItem)
  | [] => .ok []
  | it :: rest =>
      if it.component_id ∉ db.components then
        .error (.notFound "components" it.component_id)
      else
        match buildReceiptItems db rest with
        | .error e => .error e
        | .ok items =>
            .ok ({ component_id := it.component_id, location_id := it.location_id,
                   quantity := it.quantity, price_rub := it.price_rub } :: items)

/-- main.py `create_receipt` (POST /receipts): the document is created in
draft status; no stock or ledger writes happen here. -/
def create_receipt (db : DB) (data : ReceiptCreate) : Except ApiError DB :=
  if data.supplier_id ∉ db.suppliers then
    .error (.notFound "suppliers" data.supplier_id)
  else
    match buildReceiptItems db data.items with
    | .error e => .error e
    | .ok items =>
        .ok { db.setReceipt db.nextReceiptId
                { number := data.number, supplier_id := data.supplier_id,
                  status := .draft, invoice_number := data.invoice_number,
                  notes := data.notes, created_by := data.created_by, items := items } with
              nextReceiptId := db.nextReceiptId + 1 }

/-- The for-loop of main.py `confirm_receipt`: one `_stock_upsert` per
line with `delta = +quantity`; the first failure propagates. -/
def receiptLines (number : String) (performed_by : Option String) :
    DB → List ReceiptItem → Except (ApiError × DB) DB
  | db, [] => .ok db
  | db, item :: rest =>
      match stockUpsert db item.component_id (locOr1 item.location_id) item.quantity
          performed_by .receipt (some ("Приход по накладной " ++ number)) with
      | .error e => .error e
      | .ok db' => receiptLines number performed_by db' rest

/-- main.py `confirm_receipt` (POST /receipts/{id}/confirm): guard on the
draft status, run every line through `_stock_upsert`, then flip the status;
a raise anywhere loses the uncommitted session (rollback). -/
def confirm_receipt (db : DB) (rec_id : ℕ) (performed_by : Option String) :
    Except ApiError DB :=
  match db.receipts rec_id with
  | none => .error (.notFound "receipts" rec_id)
  | some receipt =>
      if receipt.status ≠ ReceiptStatus.draft then
        .error (.alreadyProcessed "Накладная уже обработана")
      else
        match receiptLines receipt.number performed_by db receipt.items with
        | .error (e, _) => .error e
        | .ok db1 => .ok (db1.setReceipt rec_id { receipt with status := .confirmed })

/-- main.py `cancel_receipt` (POST /receipts/{id}/cancel): only a
confirmed document is refused; any other status is set to cancelled. -/
def cancel_receipt (db : DB) (rec_id : ℕ) : Except ApiError DB :=
  match db.receipts rec_id with
  | none => .error (.notFound "receipts" rec_id)
  | some receipt =>
      if receipt.status = ReceiptStatus.confirmed then
        .error (.alreadyProcessed "Нельзя отменить подтверждённую накладную")
      else
        .ok (db.setReceipt rec_id { receipt with status := .cancelled })

/-- schemas.py `IssueItemCreate` (pydantic `gt=0` on quantity). -/
structure IssueItemCreate where
  component_id : ℕ
  location_id : Option ℕ
  quantity : ℚ
deriving DecidableEq, Repr

/-- schemas.py `IssueCreate`. -/
structure IssueCreate where
  number : String
  department : Option String
  requester : Option String
  purpose : Option String
  notes : Option String
  created_by : Option String
  items : List IssueItemCreate
deriving DecidableEq, Repr

/-- The item loop of main.py `create_issue`. -/
def buildIssueItems (db : DB) : List IssueItemCreate → Except ApiError (List IssueItem)
  | [] => .ok []
  | it :: rest =>
      if it.component_id ∉ db.components then
        .error (.notFound "components" it.component_id)
      else
        match buildIssueItems db rest with
        | .error e => .error e
        | .ok items =>
            .ok ({ component_id := it.component_id, location_id := it.location_id,
                   quantity := it.quantity } :: items)

/-- main.py `create_issue` (POST /issues): created in draft status. -/
def create_issue (db : DB) (data : IssueCreate) : Except ApiError DB :=
  match buildIssueItems db data.items with
  | .error e => .error e
  | .ok items =>
      .ok { db.setIssue db.nextIssueId
              { number := data.number, department := data.department,
                requester := data.requester, purpose := data.purpose,
                notes := data.notes, created_by := data.created_by,
                status := .draft, items := items } with
            nextIssueId := db.nextIssueId + 1 }

/-- The for-loop of main.py `confirm_issue`: one `_stock_upsert` per line
with `delta = -quantity`. -/
def issueLines (number : String) (performed_by : Option String) :
    DB → List IssueItem → Except (ApiError × DB) DB
  | db, [] => .ok db
  | db, item :: rest =>
      match stockUpsert db item.component_id (locOr1 item.location_id) (-item.quantity)
          performed_by .issue (some ("Выдача по накладной " ++ number)) with
      | .error e => .error e
      | .ok db' => issueLines number performed_by db' rest

/-- main.py `confirm_issue` (POST /issues/{id}/confirm). -/
def confirm_issue (db : DB) (iss_id : ℕ) (performed_by : Option String) :
    Except ApiError DB :=
  match db.issues iss_id with
  | none => .error (.notFound "issues" iss_id)
  | some issue =>
      if issue.status ≠ IssueStatus.draft then
        .error (.alreadyProcessed "Накладная уже обработана")
      else
        match issueLines issue.number performed_by db issue.items with
        | .error (e, _) => .error e
        | .ok db1 => .ok (db1.setIssue iss_id { issue with status := .confirmed })

/-- main.py `cancel_issue` (POST /issues/{id}/cancel): only a confirmed
document is refused. -/
def cancel_issue (db : DB) (iss_id : ℕ) : Except ApiError DB :=
  match db.issues iss_id with
  | none => .error (.notFound "issues" iss_id)
  | some issue =>
      if issue.status = IssueStatus.confirmed then
        .error (.alreadyProcessed "Нельзя отменить подтверждённую накладную")
      else
        .ok (db.setIssue iss_id { issue with status := .cancelled })

/-- schemas.py `InventoryItemCreate` (pydantic `ge=0` on actual_quantity). -/
structure InventoryItemCreate where
  component_id : ℕ
  location_id : Option ℕ
  actual_quantity : ℚ
deriving DecidableEq, Repr

/-- schemas.py `InventoryCreate`. -/
structure InventoryCreate where
  number : String
  notes : Option String
  created_by : Option String
  items : List InventoryItemCreate
deriving DecidableEq, Repr

/-- Appends a stored line to an inventory document (the ORM relationship
append performed by `db.add(inv_item)`). -/
def DB.addInventoryItem (db : DB) (inv_id : ℕ) (it : InventoryItem) : DB :=
  match db.inventories inv_id with
  | none => db
  | some inv => db.setInventory inv_id { inv with items := inv.items ++ [it] }

def DB.setInventoryStatus (db : DB) (inv_id : ℕ) (st : InventoryStatus) : DB :=
  match db.inventories inv_id with
  | none => db
  | some inv => db.setInventory inv_id { inv with status := st }

/-- Stand-in for the Python format piece `f"{delta:+.2f}"` inside the
inventory audit description; the exact decimal rendering is not modelled. -/
def fmtDelta (q : ℚ) : String := toString q

/-- The per-line body of main.py `create_inventory`'s loop: 404-check the
component, snapshot expected/actual/discrepancy on the stored line, and
only when the discrepancy is non-zero write the actual quantity to the
stock row (creating it if absent) and append an inventory audit row. -/
def processInventoryLine (number : String) (created_by : Option String) (inv_id : ℕ)
    (db : DB) (item : InventoryItemCreate) : Except ApiError DB :=
  if item.component_id ∉ db.components then
    .error (.notFound "components" item.component_id)
  else
    let loc_id := locOr1 item.location_id
    let stockOpt := db.stocks (item.component_id, loc_id)
    let expected : ℚ := match stockOpt with
      | some s => s.quantity
      | none => 0
    let actual := item.actual_quantity
    let delta := actual - expected
    let db1 := db.addInventoryItem inv_id
      { component_id := item.component_id, location_id := loc_id,
        expected_quantity := expected, actual_quantity := actual, discrepancy := delta }
    if delta ≠ 0 then
      let next : DB × ℕ := match stockOpt with
        | none =>
            let s : Stock := { id := db1.nextStockId, quantity := actual, reserved := 0 }
            ({ db1.setStock (item.component_id, loc_id) s with
               nextStockId := db1.nextStockId + 1 }, s.id)
        | some s =>
            (db1.setStock (item.component_id, loc_id) { s with quantity := actual }, s.id)
      .ok (writeAudit next.1
        { action_type := .inventory, entity_type := "stock", entity_id := some next.2,
          component_id := some item.component_id, location_id := some loc_id,
          quantity_before := some expected, quantity_after := some actual,
          description := some ("Инвентаризация " ++ number ++ ", расхождение: " ++
            fmtDelta delta),
          payload := none, performed_by := created_by })
    else
      .ok db1

/-- The line loop of main.py `create_inventory`. -/
def inventoryLines (number : String) (created_by : Option String) (inv_id : ℕ) :
    DB → List InventoryItemCreate → Except ApiError DB
  | db, [] => .ok db
  | db, it :: rest =>
      match processInventoryLine number created_by inv_id db it with
      | .error e => .error e
      | .ok db' => inventoryLines number created_by inv_id db' rest

/-- main.py `create_inventory` (POST /inventories): creates the document
with status in_progress, processes every line immediately, and finishes it
with status completed — all inside the create request; there is no
separate confirm step and no draft status. -/
def create_inventory (db : DB) (data : InventoryCreate) : Except ApiError DB :=
  let inv_id := db.nextInventoryId
  let db0 := { db.setInventory inv_id
      { number := data.number, status := .in_progress, notes := data.notes,
        created_by := data.created_by, items := [] } with
      nextInventoryId := db.nextInventoryId + 1 }
  match inventoryLines data.number data.created_by inv_id db0 data.items with
  | .error e => .error e
  | .ok db1 => .ok (db1.setInventoryStatus inv_id .completed)

/-- Modelled from the spec: §4.3 Manual Adjustment routed through the
Mutation Engine — `delta = target − current_before`, action kind adjust.
The source's `adjust_stock` does not in fact call `_stock_upsert`; this
definition follows the spec's words, for the refinement comparison. -/
def adjust_stock_viaEngine (db : DB) (data : StockAdjust) : Except ApiError DB :=
  if data.component_id ∉ db.components then
    .error (.notFound "components" data.component_id)
  else if data.location_id ∉ db.locations then
    .error (.notFound "storage_locations" data.location_id)
  else
    let before := qtyOf db (data.component_id, data.location_id)
    match stockUpsert db data.component_id data.location_id (data.quantity - before)
        data.performed_by .adjust data.reason with
    | .error (e, _) => .error e
    | .ok db' => .ok db'

/-- Modelled from the spec: §4.2 InventoryCount confirm semantics with the
mutation routed through the Mutation Engine when the discrepancy is
non-zero (`delta = discrepancy`, action kind inventory-count). The
source's loop body writes the stock row inline instead; this definition
follows the spec's words, for the refinement comparison. -/
def processInventoryLine_viaEngine (number : String) (created_by : Option String)
    (inv_id : ℕ) (db : DB) (item : InventoryItemCreate) : Except ApiError DB :=
  if item.component_id ∉ db.components then
    .error (.notFound "components" item.component_id)
  else
    let loc_id := locOr1 item.location_id
    let expected := qtyOf db (item.component_id, loc_id)
    let actual := item.actual_quantity
    let delta := actual - expected
    let db1 := db.addInventoryItem inv_id
      { component_id := item.component_id, location_id := loc_id,
        expected_quantity := expected, actual_quantity := actual, discrepancy := delta }
    if delta ≠ 0 then
      match stockUpsert db1 item.component_id loc_id delta created_by .inventory
          (some ("Инвентаризация " ++ number ++ ", расхождение: " ++ fmtDelta delta)) with
      | .error (e, _) => .error e
      | .ok db2 => .ok db2
    else
      .ok db1

/-- A sequence of ApplyMutation requests on one pair, each its own
transaction: an accepted call commits, a rejected call rolls back. -/
def applyCalls (cid lid : ℕ) : DB → List ℚ → DB
  | db, [] => db
  | db, d :: rest =>
      applyCalls cid lid (commitUpsert db (stockUpsert db cid lid d none .adjust none)) rest

/-- The sum of the deltas the engine accepts, starting from quantity `q`:
a delta is accepted exactly when it keeps the running quantity
non-negative, and a rejected delta leaves the running quantity alone. -/
def acceptedSum : ℚ → List ℚ → ℚ
  | _, [] => 0
  | q, d :: rest => if 0 ≤ q + d then d + acceptedSum (q + d) rest else acceptedSum q rest

/-- A small concrete store used by witnesses: one component, two
locations, one stock row `(1,1) ↦ 10`, receipt 1 draft / receipt 2
confirmed, issue 1 a draft over-requesting 15, issue 2 cancelled. -/
def sampleDB : DB where
  components := [1]
  locations := [1, 2]
  suppliers := [1]
  stocks := fun p => if p = (1, 1) then some { id := 7, quantity := 10, reserved := 0 } else none
  nextStockId := 8
  receipts := fun i =>
    if i = 1 then
      some { number := "ПН-1", supplier_id := 1, status := .draft, invoice_number := none,
             notes := none, created_by := none,
             items := [{ component_id := 1, location_id := some 1, quantity := 10,
                         price_rub := none }] }
    else if i = 2 then
      some { number := "ПН-2", supplier_id := 1, status := .confirmed, invoice_number := none,
             notes := none, created_by := none, items := [] }
    else none
  nextReceiptId := 3
  issues := fun i =>
    if i = 1 then
      some { number := "РН-1", department := none, requester := none, purpose := none,
             notes := none, created_by := none, status := .draft,
             items := [{ component_id := 1, location_id := some 1, quantity := 15 }] }
    else if i = 2 then
      some { number := "РН-2", department := none, requester := none, purpose := none,
             notes := none, created_by := none, status := .cancelled, items := [] }
    else none
  nextIssueId := 3
  inventories := fun _ => none
  nextInventoryId := 1
  ledger := []

/-- An in-progress inventory document used by witnesses. -/
def theInv : Inventory :=
  { number := "ИНВ-1", status := .in_progress, notes := none,
    created_by := none, items := [] }

/-- An inventory-count line used by witnesses: counted 7 pieces. -/
def invItem : InventoryItemCreate :=
  { component_id := 1, location_id := some 1, actual_quantity := 7 }

/-- `sampleDB` extended with the in-progress inventory document 1. -/
def invDB : DB :=
  { sampleDB with
    inventories := fun i => if i = 1 then some theInv else none,
    nextInventoryId := 2 }

/-- An inventory-count create request used by the C9 counterexample:
one line counting 5 pieces of component 1. -/
def invCreateData : InventoryCreate :=
  { number := "ИНВ-2", notes := none, created_by := none,
    items := [{ component_id := 1, location_id := some 1, actual_quantity := 5 }] }

/-- An empty store with catalog entries only. -/
def freshDB : DB where
  components := [1]
  locations := [1, 2]
  suppliers := [1]
  stocks := fun _ => none
  nextStockId := 1
  receipts := fun _ => none
  nextReceiptId := 1
  issues := fun _ => none
  nextIssueId := 1
  inventories := fun _ => none
  nextInventoryId := 1
  ledger := []

/-- The session state of `_stock_upsert` after the lookup /
create-if-absent step (`db.add` + `db.flush`), before the sign check. -/
def upsertSession (db : DB) (cid lid : ℕ) : DB :=
  match db.stocks (cid, lid) with
  | some _ => db
  | none =>
      { db.setStock (cid, lid) { id := db.nextStockId, quantity := 0, reserved := 0 } with
        nextStockId := db.nextStockId + 1 }

/-- The row id `_stock_upsert` works on: the existing row's id, or the
freshly flushed id when the row is materialised. -/
def sidOf (db : DB) (cid lid : ℕ) : ℕ :=
  match db.stocks (cid, lid) with
  | some s => s.id
  | none => db.nextStockId

/-- The audit row a successful `_stock_upsert` appends. -/
def upsertLog (db : DB) (cid lid : ℕ) (delta : ℚ) (pb : Option String)
    (act : AuditActionType) (desc : Option String) : AuditLog :=
  { action_type := act, entity_type := "stock", entity_id := some (sidOf db cid lid),
    component_id := some cid, location_id := some lid,
    quantity_before := some (qtyOf db (cid, lid)),
    quantity_after := some (qtyOf db (cid, lid) + delta),
    description := desc, payload := none, performed_by := pb }

/-- The state a successful `_stock_upsert` leaves behind. -/
def upsertOk (db : DB) (cid lid : ℕ) (delta : ℚ) (pb : Option String)
    (act : AuditActionType) (desc : Option String) : DB :=
  writeAudit ((upsertSession db cid lid).setStock (cid, lid)
      { id := sidOf db cid lid, quantity := qtyOf db (cid, lid) + delta,
        reserved := reservedOf db (cid, lid) })
    (upsertLog db cid lid delta pb act desc)

/-- Master characterisation of `_stock_upsert`: the call rejects exactly
when `before + delta < 0`, the rejection carries `available = before` and
`requested = abs delta` together with the session state at the raise, and
a success leaves the `upsertOk` state. -/
theorem stockUpsert_eq (db : DB) (cid lid : ℕ) (delta : ℚ) (pb : Option String)
    (act : AuditActionType) (desc : Option String) :
    stockUpsert db cid lid delta pb act desc =
      if qtyOf db (cid, lid) + delta < 0 then
        .error (.insufficientStock (qtyOf db (cid, lid)) |delta|, upsertSession db cid lid)
      else
        .ok (upsertOk db cid lid delta pb act desc) := by
  unfold stockUpsert stockUpsertGo upsertOk upsertSession upsertLog sidOf qtyOf reservedOf
  cases hs : db.stocks (cid, lid) with
  | none => simp only [hs]
  | some s => simp only [hs]

section FrameLemmas

variable (db : DB) (k p : ℕ × ℕ) (s : Stock) (log : AuditLog)

@[simp] theorem setStock_stocks : (db.setStock k s).stocks p = if p = k then some s else db.stocks p := rfl

@[simp] theorem setStock_ledger : (db.setStock k s).ledger = db.ledger := rfl

@[simp] theorem setStock_receipts : (db.setStock k s).receipts = db.receipts := rfl

@[simp] theorem setStock_issues : (db.setStock k s).issues = db.issues := rfl

@[simp] theorem setStock_inventories : (db.setStock k s).inventories = db.inventories := rfl

@[simp] theorem writeAudit_stocks : (writeAudit db log).stocks = db.stocks := rfl

@[simp] theorem writeAudit_ledger : (writeAudit db log).ledger = db.ledger ++ [log] := rfl

@[simp] theorem writeAudit_receipts : (writeAudit db log).receipts = db.receipts := rfl

@[simp] theorem writeAudit_issues : (writeAudit db log).issues = db.issues := rfl

@[simp] theorem writeAudit_inventories : (writeAudit db log).inventories = db.inventories := rfl

theorem qtyOf_setStock : qtyOf (db.setStock k s) p = if p = k then s.quantity else qtyOf db p := by
  unfold qtyOf DB.setStock
  by_cases h : p = k <;> simp [h]

theorem reservedOf_setStock :
    reservedOf (db.setStock k s) p = if p = k then s.reserved else reservedOf db p := by
  unfold reservedOf DB.setStock
  by_cases h : p = k <;> simp [h]

@[simp] theorem qtyOf_writeAudit : qtyOf (writeAudit db log) p = qtyOf db p := rfl

@[simp] theorem reservedOf_writeAudit : reservedOf (writeAudit db log) p = reservedOf db p := rfl

end FrameLemmas

section UpsertLemmas

variable (db : DB) (cid lid : ℕ) (delta : ℚ) (pb : Option String)
  (act : AuditActionType) (desc : Option String) (p : ℕ × ℕ)

@[simp] theorem upsertSession_ledger : (upsertSession db cid lid).ledger = db.ledger := by
  unfold upsertSession
  cases db.stocks (cid, lid) <;> rfl

@[simp] theorem upsertSession_receipts : (upsertSession db cid lid).receipts = db.receipts := by
  unfold upsertSession
  cases db.stocks (cid, lid) <;> rfl

@[simp] theorem upsertSession_issues : (upsertSession db cid lid).issues = db.issues := by
  unfold upsertSession
  cases db.stocks (cid, lid) <;> rfl

@[simp] theorem upsertSession_inventories :
    (upsertSession db cid lid).inventories = db.inventories := by
  unfold upsertSession
  cases db.stocks (cid, lid) <;> rfl

@[simp] theorem qtyOf_upsertSession : qtyOf (upsertSession db cid lid) p = qtyOf db p := by
  unfold upsertSession
  cases hs : db.stocks (cid, lid) with
  | some s => rfl
  | none =>
      show qtyOf (db.setStock (cid, lid) _) p = _
      rw [qtyOf_setStock]
      by_cases h : p = (cid, lid) <;> simp [h, qtyOf, hs]

@[simp] theorem reservedOf_upsertSession :
    reservedOf (upsertSession db cid lid) p = reservedOf db p := by
  unfold upsertSession
  cases hs : db.stocks (cid, lid) with
  | some s => rfl
  | none =>
      show reservedOf (db.setStock (cid, lid) _) p = _
      rw [reservedOf_setStock]
      by_cases h : p = (cid, lid) <;> simp [h, reservedOf, hs]

theorem upsertSession_stocks_of_isSome (h : (db.stocks p).isSome) :
    (upsertSession db cid lid).stocks p = db.stocks p := by
  unfold upsertSession
  cases hs : db.stocks (cid, lid) with
  | some s => rfl
  | none =>
      show (db.setStock (cid, lid) _).stocks p = _
      rw [setStock_stocks]
      by_cases hp : p = (cid, lid)
      · subst hp; rw [hs] at h; simp at h
      · simp [hp]

@[simp] theorem upsertOk_ledger :
    (upsertOk db cid lid delta pb act desc).ledger =
      db.ledger ++ [upsertLog db cid lid delta pb act desc] := by
  unfold upsertOk
  simp

@[simp] theorem upsertOk_receipts :
    (upsertOk db cid lid delta pb act desc).receipts = db.receipts := by
  unfold upsertOk
  simp

@[simp] theorem upsertOk_issues :
    (upsertOk db cid lid delta pb act desc).issues = db.issues := by
  unfold upsertOk
  simp

@[simp] theorem upsertOk_inventories :
    (upsertOk db cid lid delta pb act desc).inventories = db.inventories := by
  unfold upsertOk
  simp

theorem qtyOf_upsertOk :
    qtyOf (upsertOk db cid lid delta pb act desc) p =
      if p = (cid, lid) then qtyOf db (cid, lid) + delta else qtyOf db p := by
  unfold upsertOk
  rw [qtyOf_writeAudit, qtyOf_setStock]
  by_cases h : p = (cid, lid) <;> simp [h]

@[simp] theorem reservedOf_upsertOk :
    reservedOf (upsertOk db cid lid delta pb act desc) p = reservedOf db p := by
  unfold upsertOk
  rw [reservedOf_writeAudit, reservedOf_setStock]
  by_cases h : p = (cid, lid) <;> simp [h]

theorem upsertOk_stocks_key :
    (upsertOk db cid lid delta pb act desc).stocks (cid, lid) =
      some { id := sidOf db cid lid, quantity := qtyOf db (cid, lid) + delta,
             reserved := reservedOf db (cid, lid) } := by
  unfold upsertOk
  show ((upsertSession db cid lid).setStock _ _).stocks _ = _
  rw [setStock_stocks]
  simp

end UpsertLemmas

/-- C1: on a balance currently non-negative, a mutation whose resulting
quantity `before + delta` would be negative fails with InsufficientStock
carrying `available = before` and `requested = -delta`, every balance
quantity (absent row = 0) and the ledger are left as they were, existing
rows are untouched, and the committed state of the request is exactly the
pre-call state; moreover a successful call never leaves the mutated
balance below zero (and touches no other pair). -/
theorem applyMutation_insufficient :
    (∀ (db : DB) (cid lid : ℕ) (delta : ℚ) (pb : Option String)
        (act : AuditActionType) (desc : Option String),
      0 ≤ qtyOf db (cid, lid) → qtyOf db (cid, lid) + delta < 0 →
      ∃ sdb, stockUpsert db cid lid delta pb act desc =
          .error (.insufficientStock (qtyOf db (cid, lid)) (-delta), sdb) ∧
        sdb.ledger = db.ledger ∧
        (∀ p, qtyOf sdb p = qtyOf db p) ∧
        (∀ p, (db.stocks p).isSome → sdb.stocks p = db.stocks p) ∧
        commitUpsert db (stockUpsert db cid lid delta pb act desc) = db) ∧
    (∀ (db : DB) (cid lid : ℕ) (delta : ℚ) (pb : Option String)
        (act : AuditActionType) (desc : Option String) (db' : DB),
      stockUpsert db cid lid delta pb act desc = .ok db' →
      0 ≤ qtyOf db' (cid, lid) ∧ ∀ p, p ≠ (cid, lid) → qtyOf db' p = qtyOf db p) := by
  constructor
  · intro db cid lid delta pb act desc h0 hneg
    have hd : |delta| = -delta := abs_of_neg (by linarith)
    refine ⟨upsertSession db cid lid, ?_, upsertSession_ledger db cid lid,
      fun p => qtyOf_upsertSession db cid lid p,
      fun p hp => upsertSession_stocks_of_isSome db cid lid p hp, ?_⟩
    · rw [stockUpsert_eq, if_pos hneg, hd]
    · rw [stockUpsert_eq, if_pos hneg]; rfl
  · intro db cid lid delta pb act desc db' h
    rw [stockUpsert_eq] at h
    by_cases hc : qtyOf db (cid, lid) + delta < 0
    · rw [if_pos hc] at h; cases h
    · rw [if_neg hc] at h
      cases h
      constructor
      · rw [qtyOf_upsertOk, if_pos rfl]; linarith [not_lt.mp hc]
      · intro p hp
        rw [qtyOf_upsertOk, if_neg hp]

/-- Witness for C1 at a concrete input: balance 10 at `(1,1)`, delta −15. -/
theorem applyMutation_insufficient_witness :
    ∃ sdb, stockUpsert sampleDB 1 1 (-15) none .issue none =
        .error (.insufficientStock (qtyOf sampleDB (1, 1)) (-(-15)), sdb) ∧
      sdb.ledger = sampleDB.ledger ∧
      (∀ p, qtyOf sdb p = qtyOf sampleDB p) ∧
      (∀ p, (sampleDB.stocks p).isSome → sdb.stocks p = sampleDB.stocks p) ∧
      commitUpsert sampleDB (stockUpsert sampleDB 1 1 (-15) none .issue none) = sampleDB :=
  applyMutation_insufficient.1 sampleDB 1 1 (-15) none .issue none
    (by norm_num [qtyOf, sampleDB]) (by norm_num [qtyOf, sampleDB])

/-- C2: a mutation with `before + delta ≥ 0` succeeds, treats an absent
row as prior quantity 0 and materialises it, writes `before + delta` to
the balance, and appends exactly one ledger entry whose before/after,
action kind, description and actor are as supplied; immediately afterwards
the entry's `quantity_after` equals the balance quantity. -/
theorem applyMutation_success (db : DB) (cid lid : ℕ) (delta : ℚ) (pb : Option String)
    (act : AuditActionType) (desc : Option String)
    (h : 0 ≤ qtyOf db (cid, lid) + delta) :
    stockUpsert db cid lid delta pb act desc = .ok (upsertOk db cid lid delta pb act desc) ∧
    (upsertOk db cid lid delta pb act desc).ledger =
      db.ledger ++ [upsertLog db cid lid delta pb act desc] ∧
    (upsertLog db cid lid delta pb act desc).quantity_before = some (qtyOf db (cid, lid)) ∧
    (upsertLog db cid lid delta pb act desc).quantity_after =
      some (qtyOf db (cid, lid) + delta) ∧
    (upsertLog db cid lid delta pb act desc).action_type = act ∧
    (upsertLog db cid lid delta pb act desc).description = desc ∧
    (upsertLog db cid lid delta pb act desc).performed_by = pb ∧
    qtyOf (upsertOk db cid lid delta pb act desc) (cid, lid) = qtyOf db (cid, lid) + delta ∧
    (db.stocks (cid, lid) = none →
      (upsertOk db cid lid delta pb act desc).stocks (cid, lid) =
        some { id := db.nextStockId, quantity := qtyOf db (cid, lid) + delta, reserved := 0 }) ∧
    (upsertLog db cid lid delta pb act desc).quantity_after =
      some (qtyOf (upsertOk db cid lid delta pb act desc) (cid, lid)) := by
  refine ⟨?_, upsertOk_ledger db cid lid delta pb act desc, rfl, rfl, rfl, rfl, rfl, ?_, ?_, ?_⟩
  · rw [stockUpsert_eq, if_neg (not_lt.mpr h)]
  · rw [qtyOf_upsertOk, if_pos rfl]
  · intro hnone
    rw [upsertOk_stocks_key]
    unfold sidOf reservedOf
    rw [hnone]
  · rw [qtyOf_upsertOk, if_pos rfl]
    rfl

/-- Witness for C2 at a concrete input: absent row at `(1,2)`, delta 4. -/
theorem applyMutation_success_witness :
    stockUpsert sampleDB 1 2 4 (some "op") .receipt (some "d") =
      .ok (upsertOk sampleDB 1 2 4 (some "op") .receipt (some "d")) ∧
    (upsertOk sampleDB 1 2 4 (some "op") .receipt (some "d")).ledger =
      sampleDB.ledger ++ [upsertLog sampleDB 1 2 4 (some "op") .receipt (some "d")] ∧
    (upsertLog sampleDB 1 2 4 (some "op") .receipt (some "d")).quantity_before =
      some (qtyOf sampleDB (1, 2)) ∧
    (upsertLog sampleDB 1 2 4 (some "op") .receipt (some "d")).quantity_after =
      some (qtyOf sampleDB (1, 2) + 4) ∧
    (upsertLog sampleDB 1 2 4 (some "op") .receipt (some "d")).action_type = .receipt ∧
    (upsertLog sampleDB 1 2 4 (some "op") .receipt (some "d")).description = some "d" ∧
    (upsertLog sampleDB 1 2 4 (some "op") .receipt (some "d")).performed_by = some "op" ∧
    qtyOf (upsertOk sampleDB 1 2 4 (some "op") .receipt (some "d")) (1, 2) =
      qtyOf sampleDB (1, 2) + 4 ∧
    (sampleDB.stocks (1, 2) = none →
      (upsertOk sampleDB 1 2 4 (some "op") .receipt (some "d")).stocks (1, 2) =
        some { id := sampleDB.nextStockId, quantity := qtyOf sampleDB (1, 2) + 4,
               reserved := 0 }) ∧
    (upsertLog sampleDB 1 2 4 (some "op") .receipt (some "d")).quantity_after =
      some (qtyOf (upsertOk sampleDB 1 2 4 (some "op") .receipt (some "d")) (1, 2)) :=
  applyMutation_success sampleDB 1 2 4 (some "op") .receipt (some "d")
    (by norm_num [qtyOf, sampleDB])

/-- Running tally of `applyCalls`: each call moves the quantity at the
pair by its delta exactly when the engine accepts it. -/
theorem applyCalls_qty (cid lid : ℕ) (ds : List ℚ) :
    ∀ db : DB, qtyOf (applyCalls cid lid db ds) (cid, lid) =
      qtyOf db (cid, lid) + acceptedSum (qtyOf db (cid, lid)) ds := by
  induction ds with
  | nil => intro db; rw [applyCalls, acceptedSum]; ring
  | cons d rest ih =>
      intro db
      rw [applyCalls, ih, stockUpsert_eq, acceptedSum]
      by_cases hc : qtyOf db (cid, lid) + d < 0
      · rw [if_pos hc, if_neg (by linarith)]
        rfl
      · rw [if_neg hc, if_pos (not_lt.mp hc)]
        have hq : qtyOf (commitUpsert db (.ok (upsertOk db cid lid d none .adjust none)))
            (cid, lid) = qtyOf db (cid, lid) + d := by
          show qtyOf (upsertOk db cid lid d none .adjust none) (cid, lid) = _
          rw [qtyOf_upsertOk, if_pos rfl]
        rw [hq]; ring

/-- C8: over any sequence of ApplyMutation requests on an initially
absent pair, the final balance equals the sum of the accepted deltas
(acceptedSum adds a delta exactly when it keeps the tally non-negative,
and a rejected delta contributes nothing); a call is accepted (returns ok)
exactly when its delta keeps the current balance non-negative. -/
theorem applyCalls_sum (cid lid : ℕ) (db : DB) (ds : List ℚ)
    (h : db.stocks (cid, lid) = none) :
    qtyOf (applyCalls cid lid db ds) (cid, lid) = acceptedSum 0 ds ∧
    (∀ (db0 : DB) (d : ℚ),
      (stockUpsert db0 cid lid d none .adjust none).isOk = true ↔
        0 ≤ qtyOf db0 (cid, lid) + d) := by
  constructor
  · have h0 : qtyOf db (cid, lid) = 0 := by unfold qtyOf; rw [h]
    rw [applyCalls_qty, h0, zero_add]
  · intro db0 d
    rw [stockUpsert_eq]
    by_cases hc : qtyOf db0 (cid, lid) + d < 0
    · rw [if_pos hc]
      simp [Except.isOk, Except.toBool]
      linarith
    · rw [if_neg hc]
      simp [Except.isOk, Except.toBool]
      exact not_lt.mp hc

/-- Witness for C8 at a concrete input: fresh pair `(1,1)`, deltas
`[5, -2, -10, 4]` (the third is rejected), final balance `7`. -/
theorem applyCalls_sum_witness :
    (qtyOf (applyCalls 1 1 freshDB [5, -2, -10, 4]) (1, 1) =
      acceptedSum 0 [5, -2, -10, 4] ∧
    (∀ (db0 : DB) (d : ℚ),
      (stockUpsert db0 1 1 d none .adjust none).isOk = true ↔
        0 ≤ qtyOf db0 (1, 1) + d)) ∧
    acceptedSum 0 [5, -2, -10, 4] = 7 :=
  ⟨applyCalls_sum 1 1 freshDB [5, -2, -10, 4] rfl, by norm_num [acceptedSum]⟩

/-- C3: if any line's mutation fails during confirmation of a draft Issue
or Receipt, the whole confirm request fails, and — since the request's
session is rolled back — the committed state is exactly the pre-call
state: the document is still draft, every balance keeps its pre-call
value and the ledger has no new entries; more generally every failing
confirm request leaves the committed state untouched. -/
theorem confirm_allOrNothing :
    (∀ (db : DB) (iss_id : ℕ) (pb : Option String) (issue : Issue),
      db.issues iss_id = some issue → issue.status = .draft →
      (∃ e sdb, issueLines issue.number pb db issue.items = .error (e, sdb)) →
      ∃ e, confirm_issue db iss_id pb = .error e ∧
        committed db (confirm_issue db iss_id pb) = db) ∧
    (∀ (db : DB) (rec_id : ℕ) (pb : Option String) (receipt : Receipt),
      db.receipts rec_id = some receipt → receipt.status = .draft →
      (∃ e sdb, receiptLines receipt.number pb db receipt.items = .error (e, sdb)) →
      ∃ e, confirm_receipt db rec_id pb = .error e ∧
        committed db (confirm_receipt db rec_id pb) = db) ∧
    (∀ (db : DB) (iss_id : ℕ) (pb : Option String) (e : ApiError),
      confirm_issue db iss_id pb = .error e →
      committed db (confirm_issue db iss_id pb) = db) ∧
    (∀ (db : DB) (rec_id : ℕ) (pb : Option String) (e : ApiError),
      confirm_receipt db rec_id pb = .error e →
      committed db (confirm_receipt db rec_id pb) = db) := by
  refine ⟨?_, ?_, ?_, ?_⟩
  · rintro db iss_id pb issue hlook hst ⟨e, sdb, hl⟩
    have hconf : confirm_issue db iss_id pb = .error e := by
      simp [confirm_issue, hlook, hst, hl]
    exact ⟨e, hconf, by rw [hconf]; rfl⟩
  · rintro db rec_id pb receipt hlook hst ⟨e, sdb, hl⟩
    have hconf : confirm_receipt db rec_id pb = .error e := by
      simp [confirm_receipt, hlook, hst, hl]
    exact ⟨e, hconf, by rw [hconf]; rfl⟩
  · intro db iss_id pb e h
    rw [h]; rfl
  · intro db rec_id pb e h
    rw [h]; rfl

/-- Witness for C3 at a concrete input: draft issue 1 over-requests 15
against balance 10, so its single line fails. -/
theorem confirm_allOrNothing_witness :
    ∃ e, confirm_issue sampleDB 1 none = .error e ∧
      committed sampleDB (confirm_issue sampleDB 1 none) = sampleDB :=
  confirm_allOrNothing.1 sampleDB 1 none _ rfl rfl
    ⟨.insufficientStock 10 15, sampleDB, by
      simp [issueLines, stockUpsert, stockUpsertGo, sampleDB, locOr1]
      norm_num⟩

/-- Counterexample to C7 as stated: issue 2 of `sampleDB` is cancelled,
yet `cancel_issue` succeeds on it (the source only refuses cancelling a
confirmed document), instead of failing with DocumentAlreadyProcessed. -/
theorem cancel_cancelled_succeeds :
    (sampleDB.issues 2).map Issue.status = some .cancelled ∧
    (cancel_issue sampleDB 2).isOk = true ∧
    ((committed sampleDB (cancel_issue sampleDB 2)).issues 2).map Issue.status =
      some .cancelled := ⟨rfl, rfl, rfl⟩

/-- C7 amended: a confirm attempt on a non-draft Receipt or Issue fails
with DocumentAlreadyProcessed and commits nothing; a cancel attempt fails
with DocumentAlreadyProcessed exactly from the confirmed status (leaving
the state untouched), while from any other status — draft or already
cancelled — cancel succeeds and sets the status to cancelled. -/
theorem documentStatusGuards :
    (∀ (db : DB) (i : ℕ) (pb : Option String) (r : Receipt),
      db.receipts i = some r → r.status ≠ .draft →
      confirm_receipt db i pb = .error (.alreadyProcessed "Накладная уже обработана") ∧
      committed db (confirm_receipt db i pb) = db) ∧
    (∀ (db : DB) (i : ℕ) (r : Receipt),
      db.receipts i = some r → r.status = .confirmed →
      cancel_receipt db i =
        .error (.alreadyProcessed "Нельзя отменить подтверждённую накладную") ∧
      committed db (cancel_receipt db i) = db) ∧
    (∀ (db : DB) (i : ℕ) (r : Receipt),
      db.receipts i = some r → r.status ≠ .confirmed →
      ∃ db', cancel_receipt db i = .ok db' ∧
        (db'.receipts i).map Receipt.status = some .cancelled) ∧
    (∀ (db : DB) (i : ℕ) (pb : Option String) (x : Issue),
      db.issues i = some x → x.status ≠ .draft →
      confirm_issue db i pb = .error (.alreadyProcessed "Накладная уже обработана") ∧
      committed db (confirm_issue db i pb) = db) ∧
    (∀ (db : DB) (i : ℕ) (x : Issue),
      db.issues i = some x → x.status = .confirmed →
      cancel_issue db i =
        .error (.alreadyProcessed "Нельзя отменить подтверждённую накладную") ∧
      committed db (cancel_issue db i) = db) ∧
    (∀ (db : DB) (i : ℕ) (x : Issue),
      db.issues i = some x → x.status ≠ .confirmed →
      ∃ db', cancel_issue db i = .ok db' ∧
        (db'.issues i).map Issue.status = some .cancelled) := by
  refine ⟨?_, ?_, ?_, ?_, ?_, ?_⟩
  · intro db i pb r hlook hst
    have h : confirm_receipt db i pb =
        .error (.alreadyProcessed "Накладная уже обработана") := by
      simp [confirm_receipt, hlook, hst]
    exact ⟨h, by rw [h]; rfl⟩
  · intro db i r hlook hst
    have h : cancel_receipt db i =
        .error (.alreadyProcessed "Нельзя отменить подтверждённую накладную") := by
      simp [cancel_receipt, hlook, hst]
    exact ⟨h, by rw [h]; rfl⟩
  · intro db i r hlook hst
    refine ⟨db.setReceipt i { r with status := .cancelled }, ?_, ?_⟩
    · simp [cancel_receipt, hlook, hst]
    · simp [DB.setReceipt]
  · intro db i pb x hlook hst
    have h : confirm_issue db i pb =
        .error (.alreadyProcessed "Накладная уже обработана") := by
      simp [confirm_issue, hlook, hst]
    exact ⟨h, by rw [h]; rfl⟩
  · intro db i x hlook hst
    have h : cancel_issue db i =
        .error (.alreadyProcessed "Нельзя отменить подтверждённую накладную") := by
      simp [cancel_issue, hlook, hst]
    exact ⟨h, by rw [h]; rfl⟩
  · intro db i x hlook hst
    refine ⟨db.setIssue i { x with status := .cancelled }, ?_, ?_⟩
    · simp [cancel_issue, hlook, hst]
    · simp [DB.setIssue]

/-- Witness for C7 amended at a concrete input: receipt 2 of `sampleDB`
is confirmed, so re-confirming it fails and commits nothing. -/
theorem documentStatusGuards_witness :
    confirm_receipt sampleDB 2 none =
      .error (.alreadyProcessed "Накладная уже обработана") ∧
    committed sampleDB (confirm_receipt sampleDB 2 none) = sampleDB :=
  documentStatusGuards.1 sampleDB 2 none _ rfl (by decide)

/-- C5: processing one inventory-count line against current balance `e`
and counted quantity `a` always stores a line with `expected = e`,
`actual = a`, `discrepancy = a − e`; when `a ≠ e` it sets the balance to
`a` and appends exactly one inventory ledger entry with `before = e`,
`after = a`; when `a = e` it appends nothing and leaves every stock row
untouched. -/
theorem inventoryLine_spec (db : DB) (number : String) (created_by : Option String)
    (inv_id : ℕ) (item : InventoryItemCreate) (inv : Inventory)
    (hc : item.component_id ∈ db.components) (hinv : db.inventories inv_id = some inv) :
    ∃ db', processInventoryLine number created_by inv_id db item = .ok db' ∧
      db'.inventories inv_id = some { inv with items := inv.items ++
        [{ component_id := item.component_id, location_id := locOr1 item.location_id,
           expected_quantity := qtyOf db (item.component_id, locOr1 item.location_id),
           actual_quantity := item.actual_quantity,
           discrepancy := item.actual_quantity -
             qtyOf db (item.component_id, locOr1 item.location_id) }] } ∧
      (item.actual_quantity - qtyOf db (item.component_id, locOr1 item.location_id) ≠ 0 →
        qtyOf db' (item.component_id, locOr1 item.location_id) = item.actual_quantity ∧
        ∃ log, db'.ledger = db.ledger ++ [log] ∧
          log.action_type = .inventory ∧
          log.quantity_before =
            some (qtyOf db (item.component_id, locOr1 item.location_id)) ∧
          log.quantity_after = some item.actual_quantity) ∧
      (item.actual_quantity - qtyOf db (item.component_id, locOr1 item.location_id) = 0 →
        db'.ledger = db.ledger ∧ db'.stocks = db.stocks) := by
  have hcc : ¬ item.component_id ∉ db.components := not_not_intro hc
  unfold processInventoryLine
  rw [if_neg hcc]
  cases hs : db.stocks (item.component_id, locOr1 item.location_id) with
  | none =>
      have hq : qtyOf db (item.component_id, locOr1 item.location_id) = 0 := by
        unfold qtyOf; rw [hs]
      simp only [hs, hq]
      by_cases hd : item.actual_quantity - 0 ≠ 0
      · rw [if_pos hd]
        refine ⟨_, rfl, ?_, ?_, ?_⟩
        · simp [writeAudit, DB.setStock, DB.addInventoryItem, hinv, DB.setInventory]
        · intro _
          constructor
          · simp [qtyOf, writeAudit, DB.setStock, DB.addInventoryItem, hinv, DB.setInventory]
          · refine ⟨{ action_type := .inventory, entity_type := "stock",
                        entity_id := some db.nextStockId,
                        component_id := some item.component_id,
                        location_id := some (locOr1 item.location_id),
                        quantity_before := some 0,
                        quantity_after := some item.actual_quantity,
                        description := some ("Инвентаризация " ++ number ++
                          ", расхождение: " ++ fmtDelta (item.actual_quantity - 0)),
                        payload := none, performed_by := created_by },
              ?_, rfl, rfl, rfl⟩
            simp [writeAudit, DB.setStock, DB.addInventoryItem, hinv, DB.setInventory]
        · intro h0
          exact absurd h0 (by simpa using hd)
      · rw [if_neg hd]
        refine ⟨_, rfl, ?_, ?_, ?_⟩
        · simp [DB.addInventoryItem, hinv, DB.setInventory]
        · intro h
          exact absurd (by simpa using h) (by simpa using hd)
        · intro _
          constructor
          · simp [DB.addInventoryItem, hinv, DB.setInventory]
          · simp [DB.addInventoryItem, hinv, DB.setInventory]
  | some s =>
      have hq : qtyOf db (item.component_id, locOr1 item.location_id) = s.quantity := by
        unfold qtyOf; rw [hs]
      simp only [hs, hq]
      by_cases hd : item.actual_quantity - s.quantity ≠ 0
      · rw [if_pos hd]
        refine ⟨_, rfl, ?_, ?_, ?_⟩
        · simp [writeAudit, DB.setStock, DB.addInventoryItem, hinv, DB.setInventory]
        · intro _
          constructor
          · simp [qtyOf, writeAudit, DB.setStock, DB.addInventoryItem, hinv, DB.setInventory]
          · refine ⟨{ action_type := .inventory, entity_type := "stock",
                        entity_id := some s.id,
                        component_id := some item.component_id,
                        location_id := some (locOr1 item.location_id),
                        quantity_before := some s.quantity,
                        quantity_after := some item.actual_quantity,
                        description := some ("Инвентаризация " ++ number ++
                          ", расхождение: " ++ fmtDelta (item.actual_quantity - s.quantity)),
                        payload := none, performed_by := created_by },
              ?_, rfl, rfl, rfl⟩
            simp [writeAudit, DB.setStock, DB.addInventoryItem, hinv, DB.setInventory]
        · intro h0
          exact absurd h0 hd
      · rw [if_neg hd]
        refine ⟨_, rfl, ?_, ?_, ?_⟩
        · simp [DB.addInventoryItem, hinv, DB.setInventory]
        · intro h
          exact absurd h hd
        · intro _
          constructor
          · simp [DB.addInventoryItem, hinv, DB.setInventory]
          · simp [DB.addInventoryItem, hinv, DB.setInventory]


/-- Witness for C5 at a concrete input: expected 10, actual 7,
discrepancy −3. -/
theorem inventoryLine_spec_witness :
    ∃ db', processInventoryLine "ИНВ-1" none 1 invDB invItem = .ok db' ∧
      db'.inventories 1 = some { theInv with items := theInv.items ++
        [{ component_id := invItem.component_id, location_id := locOr1 invItem.location_id,
           expected_quantity := qtyOf invDB (invItem.component_id, locOr1 invItem.location_id),
           actual_quantity := invItem.actual_quantity,
           discrepancy := invItem.actual_quantity -
             qtyOf invDB (invItem.component_id, locOr1 invItem.location_id) }] } ∧
      (invItem.actual_quantity -
          qtyOf invDB (invItem.component_id, locOr1 invItem.location_id) ≠ 0 →
        qtyOf db' (invItem.component_id, locOr1 invItem.location_id) =
          invItem.actual_quantity ∧
        ∃ log, db'.ledger = invDB.ledger ++ [log] ∧
          log.action_type = .inventory ∧
          log.quantity_before =
            some (qtyOf invDB (invItem.component_id, locOr1 invItem.location_id)) ∧
          log.quantity_after = some invItem.actual_quantity) ∧
      (invItem.actual_quantity -
          qtyOf invDB (invItem.component_id, locOr1 invItem.location_id) = 0 →
        db'.ledger = invDB.ledger ∧ db'.stocks = invDB.stocks) :=
  inventoryLine_spec invDB "ИНВ-1" none 1 invItem theInv
    (by simp [invDB, sampleDB, invItem]) rfl

section StocksFrame

variable (db : DB) (i inv_id : ℕ) (r : Receipt) (x : Issue) (inv : Inventory)
  (it : InventoryItem) (st : InventoryStatus)

@[simp] theorem setReceipt_stocks : (db.setReceipt i r).stocks = db.stocks := rfl

@[simp] theorem setIssue_stocks : (db.setIssue i x).stocks = db.stocks := rfl

@[simp] theorem setInventory_stocks : (db.setInventory i inv).stocks = db.stocks := rfl

theorem addInventoryItem_stocks : (db.addInventoryItem inv_id it).stocks = db.stocks := by
  unfold DB.addInventoryItem
  cases db.inventories inv_id <;> rfl

theorem setInventoryStatus_stocks :
    (db.setInventoryStatus inv_id st).stocks = db.stocks := by
  unfold DB.setInventoryStatus
  cases db.inventories inv_id <;> rfl

end StocksFrame

theorem reservedOf_congr {db db' : DB} (h : db'.stocks = db.stocks) (p : ℕ × ℕ) :
    reservedOf db' p = reservedOf db p := by
  unfold reservedOf
  rw [h]

theorem stockUpsert_ok_reserved {db db' : DB} {cid lid : ℕ} {delta : ℚ}
    {pb : Option String} {act : AuditActionType} {desc : Option String}
    (h : stockUpsert db cid lid delta pb act desc = .ok db') (p : ℕ × ℕ) :
    reservedOf db' p = reservedOf db p := by
  rw [stockUpsert_eq] at h
  by_cases hc : qtyOf db (cid, lid) + delta < 0
  · rw [if_pos hc] at h
    exact absurd h (by simp)
  · rw [if_neg hc] at h
    cases h
    exact reservedOf_upsertOk db cid lid delta pb act desc p

theorem stockUpsert_err_reserved {db sdb : DB} {cid lid : ℕ} {delta : ℚ}
    {pb : Option String} {act : AuditActionType} {desc : Option String} {e : ApiError}
    (h : stockUpsert db cid lid delta pb act desc = .error (e, sdb)) (p : ℕ × ℕ) :
    reservedOf sdb p = reservedOf db p := by
  rw [stockUpsert_eq] at h
  by_cases hc : qtyOf db (cid, lid) + delta < 0
  · rw [if_pos hc] at h
    cases h
    exact reservedOf_upsertSession db cid lid p
  · rw [if_neg hc] at h
    exact absurd h (by simp)

theorem receiptLines_reserved (number : String) (pb : Option String)
    (items : List ReceiptItem) :
    ∀ db db' : DB, receiptLines number pb db items = .ok db' →
      ∀ p, reservedOf db' p = reservedOf db p := by
  induction items with
  | nil =>
      intro db db' h p
      cases h
      rfl
  | cons item rest ih =>
      intro db db' h p
      simp only [receiptLines] at h
      split at h
      · exact absurd h (by simp)
      · rename_i dbm hu
        exact (ih dbm db' h p).trans (stockUpsert_ok_reserved hu p)

theorem issueLines_reserved (number : String) (pb : Option String)
    (items : List IssueItem) :
    ∀ db db' : DB, issueLines number pb db items = .ok db' →
      ∀ p, reservedOf db' p = reservedOf db p := by
  induction items with
  | nil =>
      intro db db' h p
      cases h
      rfl
  | cons item rest ih =>
      intro db db' h p
      simp only [issueLines] at h
      split at h
      · exact absurd h (by simp)
      · rename_i dbm hu
        exact (ih dbm db' h p).trans (stockUpsert_ok_reserved hu p)

theorem processInventoryLine_reserved {number : String} {cb : Option String}
    {inv_id : ℕ} {db db' : DB} {item : InventoryItemCreate}
    (h : processInventoryLine number cb inv_id db item = .ok db') (p : ℕ × ℕ) :
    reservedOf db' p = reservedOf db p := by
  unfold processInventoryLine at h
  by_cases hcc : item.component_id ∉ db.components
  · rw [if_pos hcc] at h
    exact absurd h (by simp)
  · rw [if_neg hcc] at h
    cases hs : db.stocks (item.component_id, locOr1 item.location_id) with
    | none =>
        simp only [hs] at h
        split at h
        · cases h
          show reservedOf ((db.addInventoryItem inv_id _).setStock
            (item.component_id, locOr1 item.location_id) _) p = reservedOf db p
          rw [reservedOf_setStock]
          by_cases hp : p = (item.component_id, locOr1 item.location_id)
          · rw [if_pos hp, hp]
            unfold reservedOf
            rw [hs]
          · rw [if_neg hp]
            exact reservedOf_congr (addInventoryItem_stocks db inv_id _) p
        · cases h
          exact reservedOf_congr (addInventoryItem_stocks db inv_id _) p
    | some s =>
        simp only [hs] at h
        split at h
        · cases h
          show reservedOf ((db.addInventoryItem inv_id _).setStock
            (item.component_id, locOr1 item.location_id) { s with quantity := _ }) p =
              reservedOf db p
          rw [reservedOf_setStock]
          by_cases hp : p = (item.component_id, locOr1 item.location_id)
          · rw [if_pos hp, hp]
            unfold reservedOf
            rw [hs]
          · rw [if_neg hp]
            exact reservedOf_congr (addInventoryItem_stocks db inv_id _) p
        · cases h
          exact reservedOf_congr (addInventoryItem_stocks db inv_id _) p

theorem inventoryLines_reserved (number : String) (cb : Option String) (inv_id : ℕ)
    (items : List InventoryItemCreate) :
    ∀ db db' : DB, inventoryLines number cb inv_id db items = .ok db' →
      ∀ p, reservedOf db' p = reservedOf db p := by
  induction items with
  | nil =>
      intro db db' h p
      cases h
      rfl
  | cons item rest ih =>
      intro db db' h p
      simp only [inventoryLines] at h
      split at h
      · exact absurd h (by simp)
      · rename_i dbm hu
        exact (ih dbm db' h p).trans (processInventoryLine_reserved hu p)

/-- C10: every balance-changing core operation — the mutation engine
(both outcomes), manual adjustment, receipt and issue confirmation, and
inventory-count processing — preserves the reserved quantity of every
`(item, location)` pair, where an absent or newly created row reads as
reserved 0 (the column default). -/
theorem reserved_frame :
    (∀ (db db' : DB) (cid lid : ℕ) (delta : ℚ) (pb : Option String)
        (act : AuditActionType) (desc : Option String),
      stockUpsert db cid lid delta pb act desc = .ok db' →
      ∀ p, reservedOf db' p = reservedOf db p) ∧
    (∀ (db sdb : DB) (cid lid : ℕ) (delta : ℚ) (pb : Option String)
        (act : AuditActionType) (desc : Option String) (e : ApiError),
      stockUpsert db cid lid delta pb act desc = .error (e, sdb) →
      ∀ p, reservedOf sdb p = reservedOf db p) ∧
    (∀ (db db' : DB) (data : StockAdjust),
      adjust_stock db data = .ok db' →
      ∀ p, reservedOf db' p = reservedOf db p) ∧
    (∀ (db db' : DB) (rec_id : ℕ) (pb : Option String),
      confirm_receipt db rec_id pb = .ok db' →
      ∀ p, reservedOf db' p = reservedOf db p) ∧
    (∀ (db db' : DB) (iss_id : ℕ) (pb : Option String),
      confirm_issue db iss_id pb = .ok db' →
      ∀ p, reservedOf db' p = reservedOf db p) ∧
    (∀ (db db' : DB) (data : InventoryCreate),
      create_inventory db data = .ok db' →
      ∀ p, reservedOf db' p = reservedOf db p) := by
  refine ⟨?_, ?_, ?_, ?_, ?_, ?_⟩
  · intro db db' cid lid delta pb act desc h p
    exact stockUpsert_ok_reserved h p
  · intro db sdb cid lid delta pb act desc e h p
    exact stockUpsert_err_reserved h p
  · intro db db' data h p
    unfold adjust_stock at h
    by_cases h1 : data.component_id ∉ db.components
    · rw [if_pos h1] at h
      exact absurd h (by simp)
    · rw [if_neg h1] at h
      by_cases h2 : data.location_id ∉ db.locations
      · rw [if_pos h2] at h
        exact absurd h (by simp)
      · rw [if_neg h2] at h
        cases hs : db.stocks (data.component_id, data.location_id) with
        | none =>
            simp only [hs] at h
            cases h
            show reservedOf (db.setStock (data.component_id, data.location_id) _) p =
              reservedOf db p
            rw [reservedOf_setStock]
            by_cases hp : p = (data.component_id, data.location_id)
            · rw [if_pos hp, hp]
              unfold reservedOf
              rw [hs]
            · rw [if_neg hp]
        | some s =>
            simp only [hs] at h
            cases h
            show reservedOf (db.setStock (data.component_id, data.location_id)
              { s with quantity := _ }) p = reservedOf db p
            rw [reservedOf_setStock]
            by_cases hp : p = (data.component_id, data.location_id)
            · rw [if_pos hp, hp]
              unfold reservedOf
              rw [hs]
            · rw [if_neg hp]
  · intro db db' rec_id pb h p
    unfold confirm_receipt at h
    cases hl : db.receipts rec_id with
    | none =>
        simp only [hl] at h
        exact absurd h (by simp)
    | some receipt =>
        simp only [hl] at h
        by_cases hst : receipt.status ≠ ReceiptStatus.draft
        · rw [if_pos hst] at h
          exact absurd h (by simp)
        · rw [if_neg hst] at h
          split at h
          · exact absurd h (by simp)
          · rename_i dbm hu
            cases h
            exact (reservedOf_congr (setReceipt_stocks dbm rec_id _) p).trans
              (receiptLines_reserved receipt.number pb receipt.items db dbm hu p)
  · intro db db' iss_id pb h p
    unfold confirm_issue at h
    cases hl : db.issues iss_id with
    | none =>
        simp only [hl] at h
        exact absurd h (by simp)
    | some issue =>
        simp only [hl] at h
        by_cases hst : issue.status ≠ IssueStatus.draft
        · rw [if_pos hst] at h
          exact absurd h (by simp)
        · rw [if_neg hst] at h
          split at h
          · exact absurd h (by simp)
          · rename_i dbm hu
            cases h
            exact (reservedOf_congr (setIssue_stocks dbm iss_id _) p).trans
              (issueLines_reserved issue.number pb issue.items db dbm hu p)
  · intro db db' data h p
    unfold create_inventory at h
    dsimp only [] at h
    split at h
    · exact absurd h (by simp)
    · rename_i dbm hu
      cases h
      refine (reservedOf_congr (setInventoryStatus_stocks dbm db.nextInventoryId _) p).trans
        ?_
      refine (inventoryLines_reserved data.number data.created_by db.nextInventoryId
        data.items _ dbm hu p).trans ?_
      exact reservedOf_congr rfl p

/-- Witness for C10 at a concrete input: a successful adjustment on
`sampleDB` preserves every reserved quantity. -/
theorem reserved_frame_witness :
    ∀ p, reservedOf (committed sampleDB (adjust_stock sampleDB
        { component_id := 1, location_id := 1, quantity := 25,
          reason := none, performed_by := none })) p = reservedOf sampleDB p := by
  intro p
  have h : adjust_stock sampleDB
      { component_id := 1, location_id := 1, quantity := 25,
        reason := none, performed_by := none } =
      .ok (committed sampleDB (adjust_stock sampleDB
        { component_id := 1, location_id := 1, quantity := 25,
          reason := none, performed_by := none })) := by
    simp [adjust_stock, sampleDB, committed, writeAudit, DB.setStock]
  exact reserved_frame.2.2.1 sampleDB _ _ h p


/-- Counterexample to C6 as stated: a manual adjustment to target −5 is
accepted by the code instead of being rejected by validation — the call
succeeds, the balance is written to −5 and an adjust ledger entry is
appended. -/
theorem adjust_negative_accepted :
    (adjust_stock sampleDB
      { component_id := 1, location_id := 1, quantity := -5,
        reason := none, performed_by := none }).isOk = true ∧
    qtyOf (committed sampleDB (adjust_stock sampleDB
      { component_id := 1, location_id := 1, quantity := -5,
        reason := none, performed_by := none })) (1, 1) = -5 ∧
    (committed sampleDB (adjust_stock sampleDB
      { component_id := 1, location_id := 1, quantity := -5,
        reason := none, performed_by := none })).ledger.length =
      sampleDB.ledger.length + 1 := by
  refine ⟨?_, ?_, ?_⟩ <;>
    simp [adjust_stock, sampleDB, committed, writeAudit, DB.setStock, qtyOf,
      Except.isOk, Except.toBool]

/-- C6 amended: `adjust_stock` performs no sign validation on the target:
whenever the component and location exist the call succeeds for any
target — negative included — setting the balance to exactly the target
and appending one adjust ledger entry; and no adjustment call ever
returns an InsufficientStock error. -/
theorem adjust_no_validation :
    (∀ (db : DB) (data : StockAdjust),
      data.component_id ∈ db.components → data.location_id ∈ db.locations →
      ∃ db', adjust_stock db data = .ok db' ∧
        qtyOf db' (data.component_id, data.location_id) = data.quantity ∧
        db'.ledger.length = db.ledger.length + 1) ∧
    (∀ (db : DB) (data : StockAdjust) (a r : ℚ),
      adjust_stock db data ≠ .error (.insufficientStock a r)) := by
  constructor
  · intro db data hc hl
    have hcc : ¬ data.component_id ∉ db.components := not_not_intro hc
    have hll : ¬ data.location_id ∉ db.locations := not_not_intro hl
    unfold adjust_stock
    rw [if_neg hcc, if_neg hll]
    cases hs : db.stocks (data.component_id, data.location_id) with
    | none =>
        simp only [hs]
        refine ⟨_, rfl, ?_, ?_⟩
        · simp [qtyOf, writeAudit, DB.setStock]
        · simp [writeAudit]
    | some s =>
        simp only [hs]
        refine ⟨_, rfl, ?_, ?_⟩
        · simp [qtyOf, writeAudit, DB.setStock]
        · simp [writeAudit]
  · intro db data a r hcontra
    unfold adjust_stock at hcontra
    by_cases h1 : data.component_id ∉ db.components
    · rw [if_pos h1] at hcontra
      simp at hcontra
    · rw [if_neg h1] at hcontra
      by_cases h2 : data.location_id ∉ db.locations
      · rw [if_pos h2] at hcontra
        simp at hcontra
      · rw [if_neg h2] at hcontra
        cases hs : db.stocks (data.component_id, data.location_id) with
        | none =>
            simp only [hs] at hcontra
            exact absurd hcontra (by simp)
        | some s =>
            simp only [hs] at hcontra
            exact absurd hcontra (by simp)

/-- Witness for C6 amended at a concrete input: target −5 on `sampleDB`
succeeds with balance −5 and one new ledger entry. -/
theorem adjust_no_validation_witness :
    ∃ db', adjust_stock sampleDB
        { component_id := 1, location_id := 1, quantity := -5,
          reason := some "провер", performed_by := none } = .ok db' ∧
      qtyOf db' (1, 1) = -5 ∧
      db'.ledger.length = sampleDB.ledger.length + 1 :=
  adjust_no_validation.1 sampleDB
    { component_id := 1, location_id := 1, quantity := -5,
      reason := some "провер", performed_by := none }
    (by simp [sampleDB]) (by simp [sampleDB])

/-- Counterexample to C9 as stated: an InventoryCount is never in a draft
state and mutates balances at creation — right after the create request
on a fresh store, the document's status is already completed and the
counted balance has been written, with one ledger entry. -/
theorem inventory_create_immediate :
    ((committed freshDB (create_inventory freshDB invCreateData)).inventories 1).map
        Inventory.status = some .completed ∧
    qtyOf (committed freshDB (create_inventory freshDB invCreateData)) (1, 1) = 5 ∧
    qtyOf freshDB (1, 1) = 0 ∧
    (committed freshDB (create_inventory freshDB invCreateData)).ledger.length = 1 := by
  refine ⟨?_, ?_, ?_, ?_⟩ <;>
    simp [create_inventory, inventoryLines, processInventoryLine, freshDB, invCreateData,
      committed, qtyOf, writeAudit, DB.setStock, DB.addInventoryItem, DB.setInventory,
      DB.setInventoryStatus, locOr1, fmtDelta]


theorem addInventoryItem_inventories_isSome (db : DB) (inv_id : ℕ) (it : InventoryItem)
    (j : ℕ) :
    ((db.addInventoryItem inv_id it).inventories j).isSome = (db.inventories j).isSome := by
  unfold DB.addInventoryItem
  cases hinv : db.inventories inv_id with
  | none => rfl
  | some inv =>
      show ((db.setInventory inv_id _).inventories j).isSome = _
      unfold DB.setInventory
      by_cases hj : j = inv_id
      · simp [hj, hinv]
      · simp [hj]

theorem processInventoryLine_inventories_isSome {number : String} {cb : Option String}
    {inv_id : ℕ} {db db' : DB} {item : InventoryItemCreate}
    (h : processInventoryLine number cb inv_id db item = .ok db') (j : ℕ) :
    (db'.inventories j).isSome = (db.inventories j).isSome := by
  unfold processInventoryLine at h
  by_cases hcc : item.component_id ∉ db.components
  · rw [if_pos hcc] at h
    exact absurd h (by simp)
  · rw [if_neg hcc] at h
    cases hs : db.stocks (item.component_id, locOr1 item.location_id) with
    | none =>
        simp only [hs] at h
        split at h
        · cases h
          exact addInventoryItem_inventories_isSome db inv_id _ j
        · cases h
          exact addInventoryItem_inventories_isSome db inv_id _ j
    | some s =>
        simp only [hs] at h
        split at h
        · cases h
          exact addInventoryItem_inventories_isSome db inv_id _ j
        · cases h
          exact addInventoryItem_inventories_isSome db inv_id _ j

theorem inventoryLines_inventories_isSome (number : String) (cb : Option String)
    (inv_id : ℕ) (items : List InventoryItemCreate) :
    ∀ db db' : DB, inventoryLines number cb inv_id db items = .ok db' →
      ∀ j, (db'.inventories j).isSome = (db.inventories j).isSome := by
  induction items with
  | nil =>
      intro db db' h j
      cases h
      rfl
  | cons item rest ih =>
      intro db db' h j
      simp only [inventoryLines] at h
      split at h
      · exact absurd h (by simp)
      · rename_i dbm hu
        exact (ih dbm db' h j).trans (processInventoryLine_inventories_isSome hu j)

/-- C9 amended: Receipts and Issues are created in draft status with no
stock write and no ledger append, and a successful confirmation moves
them draft → confirmed; an InventoryCount however has no draft status at
all: the create request itself processes the lines and leaves the stored
document in the completed status. -/
theorem documentCreation_semantics :
    (∀ (db : DB) (data : ReceiptCreate) (db' : DB),
      create_receipt db data = .ok db' →
      (db'.receipts db.nextReceiptId).map Receipt.status = some .draft ∧
      db'.stocks = db.stocks ∧ db'.ledger = db.ledger) ∧
    (∀ (db : DB) (data : IssueCreate) (db' : DB),
      create_issue db data = .ok db' →
      (db'.issues db.nextIssueId).map Issue.status = some .draft ∧
      db'.stocks = db.stocks ∧ db'.ledger = db.ledger) ∧
    (∀ (db : DB) (data : InventoryCreate) (db' : DB),
      create_inventory db data = .ok db' →
      ∃ inv, db'.inventories db.nextInventoryId = some inv ∧
        inv.status = .completed) ∧
    (∀ (db : DB) (rec_id : ℕ) (pb : Option String) (db' : DB),
      confirm_receipt db rec_id pb = .ok db' →
      (db'.receipts rec_id).map Receipt.status = some .confirmed) ∧
    (∀ (db : DB) (iss_id : ℕ) (pb : Option String) (db' : DB),
      confirm_issue db iss_id pb = .ok db' →
      (db'.issues iss_id).map Issue.status = some .confirmed) := by
  refine ⟨?_, ?_, ?_, ?_, ?_⟩
  · intro db data db' h
    unfold create_receipt at h
    by_cases h1 : data.supplier_id ∉ db.suppliers
    · rw [if_pos h1] at h
      exact absurd h (by simp)
    · rw [if_neg h1] at h
      split at h
      · exact absurd h (by simp)
      · rename_i items hb
        cases h
        refine ⟨?_, rfl, rfl⟩
        simp [DB.setReceipt]
  · intro db data db' h
    unfold create_issue at h
    split at h
    · exact absurd h (by simp)
    · rename_i items hb
      cases h
      refine ⟨?_, rfl, rfl⟩
      simp [DB.setIssue]
  · intro db data db' h
    unfold create_inventory at h
    dsimp only [] at h
    split at h
    · exact absurd h (by simp)
    · rename_i dbm hu
      cases h
      have hsome : (dbm.inventories db.nextInventoryId).isSome = true := by
        rw [inventoryLines_inventories_isSome data.number data.created_by
          db.nextInventoryId data.items _ dbm hu db.nextInventoryId]
        simp [DB.setInventory]
      obtain ⟨inv, hinv⟩ := Option.isSome_iff_exists.mp hsome
      refine ⟨{ inv with status := .completed }, ?_, rfl⟩
      simp only [DB.setInventoryStatus, hinv]
      simp [DB.setInventory]
  · intro db rec_id pb db' h
    unfold confirm_receipt at h
    cases hl : db.receipts rec_id with
    | none =>
        simp only [hl] at h
        exact absurd h (by simp)
    | some receipt =>
        simp only [hl] at h
        by_cases hst : receipt.status ≠ ReceiptStatus.draft
        · rw [if_pos hst] at h
          exact absurd h (by simp)
        · rw [if_neg hst] at h
          split at h
          · exact absurd h (by simp)
          · rename_i dbm hu
            cases h
            simp [DB.setReceipt]
  · intro db iss_id pb db' h
    unfold confirm_issue at h
    cases hl : db.issues iss_id with
    | none =>
        simp only [hl] at h
        exact absurd h (by simp)
    | some issue =>
        simp only [hl] at h
        by_cases hst : issue.status ≠ IssueStatus.draft
        · rw [if_pos hst] at h
          exact absurd h (by simp)
        · rw [if_neg hst] at h
          split at h
          · exact absurd h (by simp)
          · rename_i dbm hu
            cases h
            simp [DB.setIssue]

/-- Witness for C9 amended at a concrete input: a receipt created on
`sampleDB` is draft and writes neither stocks nor ledger. -/
theorem documentCreation_semantics_witness :
    ((committed sampleDB (create_receipt sampleDB
        { number := "ПН-3", supplier_id := 1, invoice_number := none, notes := none,
          created_by := none, items := [] })).receipts sampleDB.nextReceiptId).map
      Receipt.status = some .draft ∧
    (committed sampleDB (create_receipt sampleDB
        { number := "ПН-3", supplier_id := 1, invoice_number := none, notes := none,
          created_by := none, items := [] })).stocks = sampleDB.stocks ∧
    (committed sampleDB (create_receipt sampleDB
        { number := "ПН-3", supplier_id := 1, invoice_number := none, notes := none,
          created_by := none, items := [] })).ledger = sampleDB.ledger := by
  have h : create_receipt sampleDB
      { number := "ПН-3", supplier_id := 1, invoice_number := none, notes := none,
        created_by := none, items := [] } =
      .ok (committed sampleDB (create_receipt sampleDB
        { number := "ПН-3", supplier_id := 1, invoice_number := none, notes := none,
          created_by := none, items := [] })) := by
    simp [create_receipt, sampleDB, buildReceiptItems, committed, DB.setReceipt]
  exact documentCreation_semantics.1 sampleDB _ _ h


theorem qtyOf_congr {db db' : DB} (h : db'.stocks = db.stocks) (p : ℕ × ℕ) :
    qtyOf db' p = qtyOf db p := by
  unfold qtyOf
  rw [h]

theorem addInventoryItem_nextStockId (db : DB) (inv_id : ℕ) (it : InventoryItem) :
    (db.addInventoryItem inv_id it).nextStockId = db.nextStockId := by
  unfold DB.addInventoryItem
  cases db.inventories inv_id <;> rfl

/-- Collapsing the zero-row materialisation followed by the quantity
write into a single row write. -/
theorem setStock_absorb (db : DB) (k : ℕ × ℕ) (s1 s2 : Stock) (n : ℕ) :
    ({ db.setStock k s1 with nextStockId := n } : DB).setStock k s2 =
      { db.setStock k s2 with nextStockId := n } := by
  unfold DB.setStock
  refine DB.ext rfl rfl rfl ?_ rfl rfl rfl rfl rfl rfl rfl rfl
  funext p
  by_cases hp : p = k <;> simp [hp]

/-- Counterexample to C4 as stated: routing the manual adjustment through
`_stock_upsert` as the spec demands (refinement model
`adjust_stock_viaEngine`) rejects a negative target with
InsufficientStock, while the code's `adjust_stock` accepts it — the two
differ at target −5 against balance 10, so adjustment does not route
through the single mutation engine. -/
theorem adjust_bypasses_engine :
    adjust_stock sampleDB
        { component_id := 1, location_id := 1, quantity := -5,
          reason := none, performed_by := none } ≠
      adjust_stock_viaEngine sampleDB
        { component_id := 1, location_id := 1, quantity := -5,
          reason := none, performed_by := none } := by
  intro hcontra
  have h1 : (adjust_stock sampleDB
      { component_id := 1, location_id := 1, quantity := -5,
        reason := none, performed_by := none }).isOk = true := by
    simp [adjust_stock, sampleDB, Except.isOk, Except.toBool, writeAudit, DB.setStock]
  have h2 : (adjust_stock_viaEngine sampleDB
      { component_id := 1, location_id := 1, quantity := -5,
        reason := none, performed_by := none }).isOk = false := by
    simp [adjust_stock_viaEngine, stockUpsert, stockUpsertGo, sampleDB, qtyOf,
      Except.isOk, Except.toBool]
  rw [hcontra] at h1
  exact absurd (h1.symm.trans h2) (by simp)


/-- C4 amended: receipt and issue confirmation drive their balance
changes through `_stock_upsert` by construction, but manual adjustment
and inventory-count processing write the balance and append their ledger
entries inline; on validated inputs the inline paths coincide with
routing through the engine — adjustment for any non-negative target, and
the inventory line for any non-negative counted quantity — while the
counterexample shows they are not the engine for a negative target. -/
theorem mutation_viaEngine_refinement :
    (∀ (db : DB) (data : StockAdjust), 0 ≤ data.quantity →
      adjust_stock db data = adjust_stock_viaEngine db data) ∧
    (∀ (number : String) (cb : Option String) (inv_id : ℕ) (db : DB)
        (item : InventoryItemCreate), 0 ≤ item.actual_quantity →
      processInventoryLine number cb inv_id db item =
        processInventoryLine_viaEngine number cb inv_id db item) := by
  constructor
  · intro db data hq
    unfold adjust_stock adjust_stock_viaEngine
    dsimp only []
    by_cases h1 : data.component_id ∉ db.components
    · rw [if_pos h1, if_pos h1]
    · rw [if_neg h1, if_neg h1]
      by_cases h2 : data.location_id ∉ db.locations
      · rw [if_pos h2, if_pos h2]
      · rw [if_neg h2, if_neg h2]
        have hcond : ¬ (qtyOf db (data.component_id, data.location_id) +
            (data.quantity - qtyOf db (data.component_id, data.location_id)) < 0) := by
          have he : qtyOf db (data.component_id, data.location_id) +
              (data.quantity - qtyOf db (data.component_id, data.location_id)) =
              data.quantity := by ring
          rw [he]
          exact not_lt.mpr hq
        rw [stockUpsert_eq, if_neg hcond]
        dsimp only []
        cases hs : db.stocks (data.component_id, data.location_id) with
        | none =>
            have hq0 : qtyOf db (data.component_id, data.location_id) = 0 := by
              unfold qtyOf
              rw [hs]
            simp only [hs, hq0]
            unfold upsertOk upsertSession upsertLog sidOf reservedOf
            simp only [hs, hq0]
            rw [setStock_absorb]
            have hcan : (0 : ℚ) + (data.quantity - 0) = data.quantity := by ring
            rw [hcan]
        | some s =>
            have hqs : qtyOf db (data.component_id, data.location_id) = s.quantity := by
              unfold qtyOf
              rw [hs]
            simp only [hs, hqs]
            unfold upsertOk upsertSession upsertLog sidOf reservedOf
            simp only [hs, hqs]
            have hcan : s.quantity + (data.quantity - s.quantity) = data.quantity := by
              ring
            rw [hcan]
  · intro number cb inv_id db item ha
    unfold processInventoryLine processInventoryLine_viaEngine
    dsimp only []
    by_cases hcc : item.component_id ∉ db.components
    · rw [if_pos hcc, if_pos hcc]
    · rw [if_neg hcc, if_neg hcc]
      cases hs : db.stocks (item.component_id, locOr1 item.location_id) with
      | none =>
          have hq0 : qtyOf db (item.component_id, locOr1 item.location_id) = 0 := by
            unfold qtyOf
            rw [hs]
          simp only [hs, hq0]
          by_cases hd : item.actual_quantity - 0 ≠ 0
          · rw [if_pos hd, if_pos hd]
            have hs1 : (db.addInventoryItem inv_id
                { component_id := item.component_id,
                  location_id := locOr1 item.location_id, expected_quantity := 0,
                  actual_quantity := item.actual_quantity,
                  discrepancy := item.actual_quantity - 0 }).stocks
                (item.component_id, locOr1 item.location_id) = none := by
              rw [addInventoryItem_stocks]
              exact hs
            have hq1 : qtyOf (db.addInventoryItem inv_id
                { component_id := item.component_id,
                  location_id := locOr1 item.location_id, expected_quantity := 0,
                  actual_quantity := item.actual_quantity,
                  discrepancy := item.actual_quantity - 0 })
                (item.component_id, locOr1 item.location_id) = 0 := by
              unfold qtyOf
              rw [hs1]
            have hcond : ¬ (qtyOf (db.addInventoryItem inv_id
                { component_id := item.component_id,
                  location_id := locOr1 item.location_id, expected_quantity := 0,
                  actual_quantity := item.actual_quantity,
                  discrepancy := item.actual_quantity - 0 })
                (item.component_id, locOr1 item.location_id) +
                (item.actual_quantity - 0) < 0) := by
              rw [hq1]
              have he : (0 : ℚ) + (item.actual_quantity - 0) = item.actual_quantity := by
                ring
              rw [he]
              exact not_lt.mpr ha
            rw [stockUpsert_eq, if_neg hcond]
            dsimp only []
            unfold upsertOk upsertSession upsertLog sidOf reservedOf
            simp only [hs1, hq1]
            rw [setStock_absorb]
            have hcan : (0 : ℚ) + (item.actual_quantity - 0) = item.actual_quantity := by
              ring
            rw [hcan]
          · rw [if_neg hd, if_neg hd]
      | some s =>
          have hqs : qtyOf db (item.component_id, locOr1 item.location_id) =
              s.quantity := by
            unfold qtyOf
            rw [hs]
          simp only [hs, hqs]
          by_cases hd : item.actual_quantity - s.quantity ≠ 0
          · rw [if_pos hd, if_pos hd]
            have hs1 : (db.addInventoryItem inv_id
                { component_id := item.component_id,
                  location_id := locOr1 item.location_id,
                  expected_quantity := s.quantity,
                  actual_quantity := item.actual_quantity,
                  discrepancy := item.actual_quantity - s.quantity }).stocks
                (item.component_id, locOr1 item.location_id) = some s := by
              rw [addInventoryItem_stocks]
              exact hs
            have hq1 : qtyOf (db.addInventoryItem inv_id
                { component_id := item.component_id,
                  location_id := locOr1 item.location_id,
                  expected_quantity := s.quantity,
                  actual_quantity := item.actual_quantity,
                  discrepancy := item.actual_quantity - s.quantity })
                (item.component_id, locOr1 item.location_id) = s.quantity := by
              unfold qtyOf
              rw [hs1]
            have hcond : ¬ (qtyOf (db.addInventoryItem inv_id
                { component_id := item.component_id,
                  location_id := locOr1 item.location_id,
                  expected_quantity := s.quantity,
                  actual_quantity := item.actual_quantity,
                  discrepancy := item.actual_quantity - s.quantity })
                (item.component_id, locOr1 item.location_id) +
                (item.actual_quantity - s.quantity) < 0) := by
              rw [hq1]
              have he : s.quantity + (item.actual_quantity - s.quantity) =
                  item.actual_quantity := by ring
              rw [he]
              exact not_lt.mpr ha
            rw [stockUpsert_eq, if_neg hcond]
            dsimp only []
            unfold upsertOk upsertSession upsertLog sidOf reservedOf
            simp only [hs1, hq1]
            have hcan : s.quantity + (item.actual_quantity - s.quantity) =
                item.actual_quantity := by ring
            rw [hcan]
          · rw [if_neg hd, if_neg hd]

/-- Witness for C4 amended at concrete inputs: adjusting to target 25 on
`sampleDB` coincides with routing through the engine, and so does the
inventory line counting 7. -/
theorem mutation_viaEngine_refinement_witness :
    adjust_stock sampleDB
        { component_id := 1, location_id := 1, quantity := 25,
          reason := some "к", performed_by := none } =
      adjust_stock_viaEngine sampleDB
        { component_id := 1, location_id := 1, quantity := 25,
          reason := some "к", performed_by := none } ∧
    processInventoryLine "ИНВ-1" none 1 invDB invItem =
      processInventoryLine_viaEngine "ИНВ-1" none 1 invDB invItem :=
  ⟨mutation_viaEngine_refinement.1 sampleDB
      { component_id := 1, location_id := 1, quantity := 25,
        reason := some "к", performed_by := none } (by norm_num),
    mutation_viaEngine_refinement.2 "ИНВ-1" none 1 invDB invItem
      (by norm_num [invItem])⟩

end Warehouse
